import Mathlib

/-
Shallow embedding of src/encrypt-excel.js.

The script delegates all spreadsheet parsing/encryption to the external
xlsx-populate library; we model that library as an abstract `Codec`
(fromData / output / sheets), the filesystem as an association list from
paths to opaque contents, and SHA-256 as an abstract hash function
`C → String`.  File reads and writes performed by the script are recorded
as an event trace so that frame claims ("verify never writes") are
observable.
-/

deriving instance DecidableEq for Except

namespace EncryptExcel

/-- The external spreadsheet codec (xlsx-populate).  `Wb` is the in-memory
workbook type, `C` the on-disk byte-buffer type.  `fromData buf pw?`
models `XlsxPopulate.fromDataAsync` / `fromFileAsync` (after the read):
it may fail.  `output wb pw?` models `outputAsync` / `toFileAsync`
serialization, encrypting when a password is supplied.  `sheets` and
`size` model `workbook.sheets().map(s => s.name())` and `buffer.length`. -/
structure Codec (Wb C : Type) where
  fromData : C → Option String → Except String Wb
  output : Wb → Option String → C
  sheets : Wb → List String
  size : C → Nat

/-- Filesystem: association list from absolute paths to file contents. -/
abbrev FS (C : Type) := List (String × C)

def FS.read {C : Type} (fs : FS C) (p : String) : Option C :=
  (fs.find? (fun e => e.1 == p)).map (fun e => e.2)

def FS.write {C : Type} (fs : FS C) (p : String) (c : C) : FS C :=
  match fs with
  | [] => [(p, c)]
  | e :: rest => if e.1 == p then (p, c) :: rest else e :: FS.write rest p c

/-- Observable filesystem accesses performed by the script. -/
inductive Ev where
  | read (p : String)
  | write (p : String)
deriving DecidableEq, Repr

/-- `XlsxPopulate.fromFileAsync(filePath, {password})`: read the file from
disk, then parse (and decrypt, when a password is given). -/
def fromFile {Wb C : Type} (codec : Codec Wb C) (fs : FS C) (p : String)
    (pw : Option String) : Except String Wb :=
  match fs.read p with
  | none => Except.error "ENOENT"
  | some data => codec.fromData data pw

def isOk {ε α : Type} : Except ε α → Bool
  | Except.ok _ => true
  | Except.error _ => false

/-- The message of line 210 of encrypt-excel.js. -/
def probeError : String := "ファイルを開けません（パスワードが違う可能性）"

/-- `isAlreadyEncrypted` (encrypt-excel.js lines 199-213): try to open with
no password; on success the file is unprotected.  Otherwise try with the
supplied password; on success it is protected.  If both fail, throw.  Each
attempt reads the file, recorded in the event list. -/
def isAlreadyEncrypted {Wb C : Type} (codec : Codec Wb C) (fs : FS C)
    (filePath password : String) : Except String (Bool × List Ev) :=
  match fromFile codec fs filePath none with
  | Except.ok _ => Except.ok (false, [Ev.read filePath])
  | Except.error _ =>
    match fromFile codec fs filePath (some password) with
    | Except.ok _ => Except.ok (true, [Ev.read filePath, Ev.read filePath])
    | Except.error _ => Except.error probeError

/-- `encryptFile` (lines 96-110): skip when the probe says already
encrypted; otherwise load with no password and rewrite in place with the
password. -/
def encryptFile {Wb C : Type} (codec : Codec Wb C) (fs : FS C)
    (filePath password : String) : Except String (FS C × List Ev) :=
  match isAlreadyEncrypted codec fs filePath password with
  | Except.error e => Except.error e
  | Except.ok (true, evs) => Except.ok (fs, evs)
  | Except.ok (false, evs) =>
    match fromFile codec fs filePath none with
    | Except.error e => Except.error e
    | Except.ok wb =>
      Except.ok (fs.write filePath (codec.output wb (some password)),
        evs ++ [Ev.read filePath, Ev.write filePath])

/-- `decryptFile` (lines 116-130): skip when the probe says not encrypted;
otherwise load with the password and rewrite in place with no password. -/
def decryptFile {Wb C : Type} (codec : Codec Wb C) (fs : FS C)
    (filePath password : String) : Except String (FS C × List Ev) :=
  match isAlreadyEncrypted codec fs filePath password with
  | Except.error e => Except.error e
  | Except.ok (false, evs) => Except.ok (fs, evs)
  | Except.ok (true, evs) =>
    match fromFile codec fs filePath (some password) with
    | Except.error e => Except.error e
    | Except.ok wb =>
      Except.ok (fs.write filePath (codec.output wb none),
        evs ++ [Ev.read filePath, Ev.write filePath])

/-- The values computed and printed by `verifyFile`; `verdict` is the
boolean driving the final line 192 message (success vs warning). -/
structure VerifyReport (C : Type) where
  originalBuffer : C
  encryptedBuffer : C
  decryptedBuffer : C
  passthroughBuffer : C
  passVsDecrypt : Bool
  sizeDiff : Nat
  origSheets : List String
  decSheets : List String
  sheetsMatch : Bool
  verdict : Bool
deriving DecidableEq, Repr

/-- `verifyFile` (lines 136-193): read the file, encrypt then decrypt in
memory, compute a no-password passthrough, compare hashes, sizes and
sheet lists, and print a final verdict.  Returns the report, the
(unchanged) filesystem and the access trace. -/
def verifyFile {Wb C : Type} (codec : Codec Wb C) (hashBuffer : C → String)
    (fs : FS C) (filePath password : String) :
    Except String (VerifyReport C × FS C × List Ev) :=
  match fs.read filePath with
  | none => Except.error "ENOENT"
  | some originalBuffer =>
    match codec.fromData originalBuffer none with
    | Except.error e => Except.error e
    | Except.ok wb1 =>
      let encryptedBuffer := codec.output wb1 (some password)
      match codec.fromData encryptedBuffer (some password) with
      | Except.error e => Except.error e
      | Except.ok wb2 =>
        let decryptedBuffer := codec.output wb2 none
        match codec.fromData originalBuffer none with
        | Except.error e => Except.error e
        | Except.ok wb3 =>
          let passthroughBuffer := codec.output wb3 none
          let passVsDecrypt :=
            hashBuffer passthroughBuffer == hashBuffer decryptedBuffer
          let sizeDiff :=
            ((codec.size originalBuffer : Int) - codec.size decryptedBuffer).natAbs
          match codec.fromData originalBuffer none,
              codec.fromData decryptedBuffer none with
          | Except.error e, _ => Except.error e
          | _, Except.error e => Except.error e
          | Except.ok origWb, Except.ok decWb =>
            let origSheets := codec.sheets origWb
            let decSheets := codec.sheets decWb
            Except.ok
              ({ originalBuffer := originalBuffer
                 encryptedBuffer := encryptedBuffer
                 decryptedBuffer := decryptedBuffer
                 passthroughBuffer := passthroughBuffer
                 passVsDecrypt := passVsDecrypt
                 sizeDiff := sizeDiff
                 origSheets := origSheets
                 decSheets := decSheets
                 sheetsMatch :=
                   String.intercalate "," origSheets == String.intercalate "," decSheets
                 verdict := passVsDecrypt },
               fs, [Ev.read filePath])

/-- `path.basename`: the part of the path after the last separator. -/
def basename (p : String) : String := (p.splitOn "/").getLastD p

/-- The body of the directory-mode loop (lines 62-68): conditional
dispatch on the command string.  A `verify` success keeps only the
filesystem and trace; a command matching none of the three branches
awaits nothing and succeeds immediately. -/
def dispatch {Wb C : Type} (codec : Codec Wb C) (hashBuffer : C → String)
    (command password file : String) (fs : FS C) :
    Except String (FS C × List Ev) :=
  if command = "encrypt" then encryptFile codec fs file password
  else if command = "decrypt" then decryptFile codec fs file password
  else if command = "verify" then
    match verifyFile codec hashBuffer fs file password with
    | Except.ok (_, fs', evs) => Except.ok (fs', evs)
    | Except.error e => Except.error e
  else Except.ok (fs, [])

/-- Result of the directory-mode loop: final filesystem, the two counters
of line 59, the accumulated access trace, and the failure log of line 71
(base name, message). -/
structure BatchResult (C : Type) where
  fs : FS C
  success : Nat
  fail : Nat
  evs : List Ev
  log : List (String × String)
deriving DecidableEq, Repr

/-- The directory-mode loop (lines 59-74): each file is processed in
order; a failure is caught, logged with the file's base name and the
message, counted, and the loop continues. -/
def runBatch {Wb C : Type} (codec : Codec Wb C) (hashBuffer : C → String)
    (command password : String) : BatchResult C → List String → BatchResult C
  | acc, [] => acc
  | acc, file :: rest =>
    match dispatch codec hashBuffer command password file acc.fs with
    | Except.ok (fs', evs') =>
      runBatch codec hashBuffer command password
        { acc with fs := fs', success := acc.success + 1, evs := acc.evs ++ evs' } rest
    | Except.error e =>
      runBatch codec hashBuffer command password
        { acc with fail := acc.fail + 1, log := acc.log ++ [(basename file, e)] } rest

/-- Modelled from the spec: the attempt trace of a batch run — for every
candidate file, in order, whether its processing succeeded or the message
it failed with.  Used to state that the driver attempts all files and
that the reported counters match the per-file outcomes. -/
def specAttemptTrace {Wb C : Type} (codec : Codec Wb C) (hashBuffer : C → String)
    (command password : String) : FS C → List String → List (String × Option String)
  | _, [] => []
  | fs, file :: rest =>
    match dispatch codec hashBuffer command password file fs with
    | Except.ok (fs', _) =>
      (file, none) :: specAttemptTrace codec hashBuffer command password fs' rest
    | Except.error e =>
      (file, some e) :: specAttemptTrace codec hashBuffer command password fs rest

/-- JavaScript `String.prototype.endsWith`: the characters of `suffix`
are a suffix of the characters of `s` (case-sensitive). -/
def strEndsWith (s suffix : String) : Bool :=
  suffix.data.isSuffixOf s.data

/-- JavaScript `String.prototype.startsWith` (case-sensitive). -/
def strStartsWith (s pre : String) : Bool :=
  pre.data.isPrefixOf s.data

/-- The directory-mode selection filter of line 49. -/
def candidateFilter (f : String) : Bool :=
  strEndsWith f ".xlsx" && !(strStartsWith f "~$")

/-- Line 48-50 without the `path.join` step: the selected file names. -/
def candidates (listing : List String) : List String :=
  listing.filter candidateFilter

/-- What `fs.existsSync` / `fs.statSync` / `fs.readdirSync` report about
the resolved target path. -/
inductive TargetInfo where
  | missing
  | file
  | dir (listing : List String)

/-- How a run of `main` ended. -/
inductive OutKind where
  | usage
  | notFound
  | noFiles
  | batchReport (success fail : Nat)
  | singleOk
  | unknownCmd
  | uncaughtErr (msg : String)
deriving DecidableEq, Repr

/-- Observable outcome of a run: the process exit code, the final
filesystem, the file accesses performed, and which message path ended
the run. -/
structure Outcome (C : Type) where
  exitCode : Nat
  kind : OutKind
  fs : FS C
  evs : List Ev
deriving DecidableEq, Repr

/-- JavaScript truthiness of an optional string argument: `undefined` and
the empty string are falsy. -/
def truthy : Option String → Bool
  | none => false
  | some s => !(s == "")

/-- `main` (lines 26-90).  `resolve` models `path.resolve`, `info` models
the existence/stat/readdir queries on the resolved path.  Single-file
operation errors propagate to the top-level catch of line 226 (exit 1). -/
def main {Wb C : Type} (codec : Codec Wb C) (hashBuffer : C → String)
    (resolve : String → String) (command password targetPath : Option String)
    (info : String → TargetInfo) (fs : FS C) : Outcome C :=
  if !truthy command || !truthy password || !truthy targetPath then
    { exitCode := 1, kind := OutKind.usage, fs := fs, evs := [] }
  else
    match command, password, targetPath with
    | some cmd, some pw, some tp =>
      let resolvedPath := resolve tp
      match info resolvedPath with
      | TargetInfo.missing =>
        { exitCode := 1, kind := OutKind.notFound, fs := fs, evs := [] }
      | TargetInfo.dir listing =>
        let files := (candidates listing).map (fun f => resolvedPath ++ "/" ++ f)
        if files.length = 0 then
          { exitCode := 0, kind := OutKind.noFiles, fs := fs, evs := [] }
        else
          let r := runBatch codec hashBuffer cmd pw
            { fs := fs, success := 0, fail := 0, evs := [], log := [] } files
          { exitCode := 0, kind := OutKind.batchReport r.success r.fail,
            fs := r.fs, evs := r.evs }
      | TargetInfo.file =>
        if cmd = "encrypt" then
          match encryptFile codec fs resolvedPath pw with
          | Except.ok (fs', evs) =>
            { exitCode := 0, kind := OutKind.singleOk, fs := fs', evs := evs }
          | Except.error e =>
            { exitCode := 1, kind := OutKind.uncaughtErr e, fs := fs, evs := [] }
        else if cmd = "decrypt" then
          match decryptFile codec fs resolvedPath pw with
          | Except.ok (fs', evs) =>
            { exitCode := 0, kind := OutKind.singleOk, fs := fs', evs := evs }
          | Except.error e =>
            { exitCode := 1, kind := OutKind.uncaughtErr e, fs := fs, evs := [] }
        else if cmd = "verify" then
          match verifyFile codec hashBuffer fs resolvedPath pw with
          | Except.ok (_, fs', evs) =>
            { exitCode := 0, kind := OutKind.singleOk, fs := fs', evs := evs }
          | Except.error e =>
            { exitCode := 1, kind := OutKind.uncaughtErr e, fs := fs, evs := [] }
        else
          { exitCode := 1, kind := OutKind.unknownCmd, fs := fs, evs := [] }
    | _, _, _ =>
      { exitCode := 1, kind := OutKind.usage, fs := fs, evs := [] }

/-- Concrete file contents for instantiating the abstract codec: a plain
workbook, a password-wrapped workbook, or unparseable bytes. -/
inductive XContent where
  | plain (d : Nat)
  | enc (pw : String) (d : Nat)
  | corrupt
deriving DecidableEq, Repr

/-- A concrete well-behaved codec over `XContent`, used to evaluate the
script's operations on explicit inputs. -/
def toyCodec : Codec Nat XContent where
  fromData c pw :=
    match c, pw with
    | XContent.plain d, _ => Except.ok d
    | XContent.enc p d, some q =>
      if q == p then Except.ok d else Except.error "bad password"
    | XContent.enc _ _, none => Except.error "encrypted"
    | XContent.corrupt, _ => Except.error "corrupt"
  output wb pw :=
    match pw with
    | none => XContent.plain wb
    | some p => XContent.enc p wb
  sheets wb := [Nat.repr wb]
  size c :=
    match c with
    | XContent.plain d => d
    | XContent.enc _ d => d
    | XContent.corrupt => 0

/-- A concrete injective hash on `XContent`. -/
def toyHash : XContent → String
  | XContent.plain d => "p" ++ Nat.repr d
  | XContent.enc p d => "e" ++ p ++ Nat.repr d
  | XContent.corrupt => "x"

/-! ### Helper lemmas -/

theorem FS.read_cons {C : Type} (e : String × C) (l : FS C) (p : String) :
    FS.read (e :: l) p = if e.1 == p then some e.2 else FS.read l p := by
  by_cases h : e.1 == p <;> simp [FS.read, List.find?, h]

theorem FS.read_write {C : Type} (fs : FS C) (p : String) (c : C) :
    (fs.write p c).read p = some c := by
  induction fs with
  | nil => simp [FS.write, FS.read, List.find?]
  | cons e rest ih =>
    by_cases h : e.1 == p
    · simp [FS.write, h, FS.read_cons]
    · simp [FS.write, h, FS.read_cons, ih]

theorem isOk_true_iff {ε α : Type} (r : Except ε α) :
    isOk r = true ↔ ∃ a, r = Except.ok a := by
  cases r <;> simp [isOk]

theorem isOk_false_iff {ε α : Type} (r : Except ε α) :
    isOk r = false ↔ ∃ e, r = Except.error e := by
  cases r <;> simp [isOk]

theorem probe_ok_true_inv {Wb C : Type} (codec : Codec Wb C) (fs : FS C)
    (p pw : String) (evs : List Ev)
    (h : isAlreadyEncrypted codec fs p pw = Except.ok (true, evs)) :
    evs = [Ev.read p, Ev.read p]
    ∧ (∃ e, fromFile codec fs p none = Except.error e)
    ∧ (∃ wb, fromFile codec fs p (some pw) = Except.ok wb) := by
  cases h1 : fromFile codec fs p none <;>
    cases h2 : fromFile codec fs p (some pw) <;>
      simp_all [isAlreadyEncrypted]

theorem probe_ok_false_inv {Wb C : Type} (codec : Codec Wb C) (fs : FS C)
    (p pw : String) (evs : List Ev)
    (h : isAlreadyEncrypted codec fs p pw = Except.ok (false, evs)) :
    evs = [Ev.read p] ∧ ∃ wb, fromFile codec fs p none = Except.ok wb := by
  cases h1 : fromFile codec fs p none <;>
    cases h2 : fromFile codec fs p (some pw) <;>
      simp_all [isAlreadyEncrypted]

/-! ### Claim theorems -/

/-- C1: the encryption-state probe returns `false` (unprotected) exactly
when the no-password load succeeds; it returns `true` (protected) exactly
when the no-password load fails and the load with the supplied password
succeeds; and it fails with the "unable to open file, password may be
incorrect" error exactly when both load attempts fail — the error outcome
is a distinct constructor from both boolean outcomes. -/
theorem probe_three_outcomes {Wb C : Type} (codec : Codec Wb C) (fs : FS C)
    (p pw : String) :
    (∀ evs, isAlreadyEncrypted codec fs p pw = Except.ok (false, evs) ↔
      (isOk (fromFile codec fs p none) = true ∧ evs = [Ev.read p]))
    ∧ (∀ evs, isAlreadyEncrypted codec fs p pw = Except.ok (true, evs) ↔
      (isOk (fromFile codec fs p none) = false
        ∧ isOk (fromFile codec fs p (some pw)) = true
        ∧ evs = [Ev.read p, Ev.read p]))
    ∧ (∀ e, isAlreadyEncrypted codec fs p pw = Except.error e ↔
      (isOk (fromFile codec fs p none) = false
        ∧ isOk (fromFile codec fs p (some pw)) = false
        ∧ e = probeError)) := by
  refine ⟨?_, ?_, ?_⟩ <;> intro x <;>
    cases h1 : fromFile codec fs p none <;>
      cases h2 : fromFile codec fs p (some pw) <;>
        simp [isAlreadyEncrypted, h1, h2, isOk, eq_comm]

/-- C5: in directory mode a filename is selected iff it ends with the
case-sensitive suffix `.xlsx` and does not start with `~$`; of
`a.xlsx`, `~$a.xlsx`, `b.txt`, `B.XLSX` only `a.xlsx` is selected. -/
theorem candidates_characterization :
    (∀ (listing : List String) (f : String),
      f ∈ candidates listing ↔
        (f ∈ listing ∧ ".xlsx".data <:+ f.data ∧ ¬("~$".data <+: f.data)))
    ∧ candidates ["a.xlsx", "~$a.xlsx", "b.txt", "B.XLSX"] = ["a.xlsx"] := by
  constructor
  · intro listing f
    simp [candidates, List.mem_filter, candidateFilter, strEndsWith,
      strStartsWith, List.isPrefixOf_iff_prefix, List.isSuffixOf_iff_suffix,
      Bool.eq_false_iff, and_assoc]
  · decide

/-- C2: encrypt on a file the probe reports protected is a no-op that
returns normally with the filesystem unchanged; decrypt on a file the
probe reports unprotected is likewise a no-op; and — for a codec whose
password-wrapped output cannot be opened without the password but can be
opened with it — running encrypt twice with the same password leaves the
result of the first run untouched (the second run skips). -/
theorem encrypt_decrypt_idempotent {Wb C : Type} (codec : Codec Wb C)
    (fs : FS C) (p pw : String)
    (h1 : ∀ wb, isOk (codec.fromData (codec.output wb (some pw)) none) = false)
    (h2 : ∀ wb, isOk (codec.fromData (codec.output wb (some pw)) (some pw)) = true) :
    (∀ evs, isAlreadyEncrypted codec fs p pw = Except.ok (true, evs) →
      encryptFile codec fs p pw = Except.ok (fs, evs))
    ∧ (∀ evs, isAlreadyEncrypted codec fs p pw = Except.ok (false, evs) →
      decryptFile codec fs p pw = Except.ok (fs, evs))
    ∧ (∀ fs₁ evs₁, encryptFile codec fs p pw = Except.ok (fs₁, evs₁) →
      encryptFile codec fs₁ p pw = Except.ok (fs₁, [Ev.read p, Ev.read p])) := by
  refine ⟨?_, ?_, ?_⟩
  · intro evs h
    simp [encryptFile, h]
  · intro evs h
    simp [decryptFile, h]
  · intro fs₁ evs₁ h
    cases hp : isAlreadyEncrypted codec fs p pw with
    | error e => simp [encryptFile, hp] at h
    | ok r =>
      obtain ⟨b, evs⟩ := r
      cases b with
      | true =>
        have hinv := probe_ok_true_inv codec fs p pw evs hp
        simp [encryptFile, hp] at h
        obtain ⟨hfs, hevs⟩ := h
        subst hfs
        simp [encryptFile, hp, hinv.1]
      | false =>
        have hinv := probe_ok_false_inv codec fs p pw evs hp
        obtain ⟨hevs, wb, hwb⟩ := hinv
        simp [encryptFile, hp, hwb] at h
        obtain ⟨hfs, hevs₁⟩ := h
        obtain ⟨e, he⟩ := (isOk_false_iff _).mp (h1 wb)
        obtain ⟨wb', hwb'⟩ := (isOk_true_iff _).mp (h2 wb)
        have hread : fromFile codec fs₁ p none =
            codec.fromData (codec.output wb (some pw)) none := by
          rw [← hfs]
          simp [fromFile, FS.read_write]
        have hread' : fromFile codec fs₁ p (some pw) =
            codec.fromData (codec.output wb (some pw)) (some pw) := by
          rw [← hfs]
          simp [fromFile, FS.read_write]
        have hprobe : isAlreadyEncrypted codec fs₁ p pw =
            Except.ok (true, [Ev.read p, Ev.read p]) := by
          simp [isAlreadyEncrypted, hread, hread', he, hwb']
        simp [encryptFile, hprobe]

/-- Witness for C2: a plain workbook at `/d/a.xlsx` is encrypted once
with password `1234`; running encrypt again on the result leaves it
unchanged (the probe reports it protected and the operation skips). -/
theorem encrypt_decrypt_idempotent_witness :
    encryptFile toyCodec [("/d/a.xlsx", XContent.enc "1234" 7)] "/d/a.xlsx" "1234" =
      Except.ok ([("/d/a.xlsx", XContent.enc "1234" 7)],
        [Ev.read "/d/a.xlsx", Ev.read "/d/a.xlsx"]) :=
  (encrypt_decrypt_idempotent toyCodec [("/d/a.xlsx", XContent.plain 7)]
      "/d/a.xlsx" "1234"
      (fun _ => rfl) (fun wb => by simp [toyCodec, isOk])).2.2
    [("/d/a.xlsx", XContent.enc "1234" 7)]
    [Ev.read "/d/a.xlsx", Ev.read "/d/a.xlsx", Ev.write "/d/a.xlsx"]
    (by decide)

theorem runBatch_trace {Wb C : Type} (codec : Codec Wb C) (hb : C → String)
    (cmd pw : String) :
    ∀ (files : List String) (fs0 : FS C) (s0 f0 : Nat) (evs0 : List Ev)
      (log0 : List (String × String)),
      (specAttemptTrace codec hb cmd pw fs0 files).map Prod.fst = files
      ∧ (runBatch codec hb cmd pw ⟨fs0, s0, f0, evs0, log0⟩ files).success =
        s0 + (specAttemptTrace codec hb cmd pw fs0 files).countP (fun e => e.2.isNone)
      ∧ (runBatch codec hb cmd pw ⟨fs0, s0, f0, evs0, log0⟩ files).fail =
        f0 + (specAttemptTrace codec hb cmd pw fs0 files).countP (fun e => e.2.isSome)
      ∧ (runBatch codec hb cmd pw ⟨fs0, s0, f0, evs0, log0⟩ files).log =
        log0 ++ (specAttemptTrace codec hb cmd pw fs0 files).filterMap
          (fun e => e.2.map (fun msg => (basename e.1, msg))) := by
  intro files
  induction files with
  | nil => intro fs0 s0 f0 evs0 log0; simp [runBatch, specAttemptTrace]
  | cons file rest ih =>
    intro fs0 s0 f0 evs0 log0
    cases hd : dispatch codec hb cmd pw file fs0 with
    | ok res =>
      obtain ⟨fs', evs'⟩ := res
      have h := ih fs' (s0 + 1) f0 (evs0 ++ evs') log0
      simp [runBatch, specAttemptTrace, hd, List.countP_cons, h.1, h.2.1,
        h.2.2.1, h.2.2.2]
      omega
    | error e =>
      have h := ih fs0 s0 (f0 + 1) evs0 (log0 ++ [(basename file, e)])
      simp [runBatch, specAttemptTrace, hd, List.countP_cons, h.1, h.2.1,
        h.2.2.1, h.2.2.2]
      omega

theorem trace_count_split (t : List (String × Option String)) :
    t.countP (fun e => e.2.isNone) + t.countP (fun e => e.2.isSome) = t.length := by
  induction t with
  | nil => simp
  | cons e rest ih => cases h : e.2 <;> simp [List.countP_cons, h] <;> omega

/-- C3: the directory-mode driver attempts every candidate file in
listing order regardless of earlier failures (the attempt trace covers
exactly the candidate list), each failure is logged with the file's base
name and message, and the final report counts exactly N−M successes and
M failures, where N is the number of candidates and M the number of
failing attempts. -/
theorem batch_attempts_all_and_reports {Wb C : Type} (codec : Codec Wb C)
    (hb : C → String) (cmd pw : String) (fs : FS C) (files : List String) :
    (specAttemptTrace codec hb cmd pw fs files).map Prod.fst = files
    ∧ (runBatch codec hb cmd pw ⟨fs, 0, 0, [], []⟩ files).success =
      files.length -
        (specAttemptTrace codec hb cmd pw fs files).countP (fun e => e.2.isSome)
    ∧ (runBatch codec hb cmd pw ⟨fs, 0, 0, [], []⟩ files).fail =
      (specAttemptTrace codec hb cmd pw fs files).countP (fun e => e.2.isSome)
    ∧ (runBatch codec hb cmd pw ⟨fs, 0, 0, [], []⟩ files).success +
      (runBatch codec hb cmd pw ⟨fs, 0, 0, [], []⟩ files).fail = files.length
    ∧ (runBatch codec hb cmd pw ⟨fs, 0, 0, [], []⟩ files).log =
      (specAttemptTrace codec hb cmd pw fs files).filterMap
        (fun e => e.2.map (fun msg => (basename e.1, msg))) := by
  have h := runBatch_trace codec hb cmd pw files fs 0 0 [] []
  have hlen : (specAttemptTrace codec hb cmd pw fs files).length = files.length := by
    have hm := congrArg List.length h.1
    simpa using hm
  have hsplit := trace_count_split (specAttemptTrace codec hb cmd pw fs files)
  refine ⟨h.1, ?_, ?_, ?_, ?_⟩
  · rw [h.2.1]
    omega
  · rw [h.2.2.1]
    omega
  · rw [h.2.1, h.2.2.1]
    omega
  · rw [h.2.2.2]
    simp

theorem runBatch_unknown_aux {Wb C : Type} (codec : Codec Wb C) (hb : C → String)
    (cmd pw : String)
    (h1 : cmd ≠ "encrypt") (h2 : cmd ≠ "decrypt") (h3 : cmd ≠ "verify") :
    ∀ (files : List String) (fs0 : FS C) (s0 f0 : Nat) (evs0 : List Ev)
      (log0 : List (String × String)),
      runBatch codec hb cmd pw ⟨fs0, s0, f0, evs0, log0⟩ files =
        ⟨fs0, s0 + files.length, f0, evs0, log0⟩ := by
  intro files
  induction files with
  | nil => intro fs0 s0 f0 evs0 log0; simp [runBatch]
  | cons file rest ih =>
    intro fs0 s0 f0 evs0 log0
    have h := ih fs0 (s0 + 1) f0 evs0 log0
    simp [runBatch, dispatch, h1, h2, h3, h]
    omega

/-- C4 counterexample: with an unrecognized command the directory-mode
dispatch does not behave as the verify operation.  On a corrupt candidate
file, verify fails (and the batch counts a failure), while the command
`frobnicate` matches no branch, performs no file access, and the batch
counts a success. -/
theorem dispatch_unknown_not_verify :
    dispatch toyCodec toyHash "frobnicate" "x" "/d/c.xlsx"
      [("/d/c.xlsx", XContent.corrupt)] =
      Except.ok ([("/d/c.xlsx", XContent.corrupt)], [])
    ∧ dispatch toyCodec toyHash "verify" "x" "/d/c.xlsx"
      [("/d/c.xlsx", XContent.corrupt)] = Except.error "corrupt"
    ∧ (runBatch toyCodec toyHash "frobnicate" "x"
        ⟨[("/d/c.xlsx", XContent.corrupt)], 0, 0, [], []⟩ ["/d/c.xlsx"]).success = 1
    ∧ (runBatch toyCodec toyHash "frobnicate" "x"
        ⟨[("/d/c.xlsx", XContent.corrupt)], 0, 0, [], []⟩ ["/d/c.xlsx"]).fail = 0
    ∧ (runBatch toyCodec toyHash "verify" "x"
        ⟨[("/d/c.xlsx", XContent.corrupt)], 0, 0, [], []⟩ ["/d/c.xlsx"]).fail = 1 := by
  decide

/-- C4 (amended): in directory mode a command string that is not
`encrypt`, not `decrypt` and not `verify` is not rejected; the dispatch
matches none of its three branches, so no operation is invoked on any
candidate file (no file access, filesystem unchanged) and the batch
counts every candidate as a success. -/
theorem batch_unknown_command_counts_success {Wb C : Type} (codec : Codec Wb C)
    (hb : C → String) (cmd pw : String) (fs : FS C) (file : String)
    (files : List String)
    (h1 : cmd ≠ "encrypt") (h2 : cmd ≠ "decrypt") (h3 : cmd ≠ "verify") :
    dispatch codec hb cmd pw file fs = Except.ok (fs, [])
    ∧ runBatch codec hb cmd pw ⟨fs, 0, 0, [], []⟩ files =
      ⟨fs, files.length, 0, [], []⟩ := by
  constructor
  · simp [dispatch, h1, h2, h3]
  · have h := runBatch_unknown_aux codec hb cmd pw h1 h2 h3 files fs 0 0 [] []
    simpa using h

/-- Witness for the amended C4 on a concrete two-file batch with the
command `frobnicate`. -/
theorem batch_unknown_command_counts_success_witness :
    dispatch toyCodec toyHash "frobnicate" "x" "/d/a.xlsx"
      [("/d/a.xlsx", XContent.plain 7)] =
      Except.ok ([("/d/a.xlsx", XContent.plain 7)], [])
    ∧ runBatch toyCodec toyHash "frobnicate" "x"
        ⟨[("/d/a.xlsx", XContent.plain 7)], 0, 0, [], []⟩
        ["/d/a.xlsx", "/d/b.xlsx"] =
      ⟨[("/d/a.xlsx", XContent.plain 7)], 2, 0, [], []⟩ :=
  batch_unknown_command_counts_success toyCodec toyHash "frobnicate" "x"
    [("/d/a.xlsx", XContent.plain 7)] "/d/a.xlsx" ["/d/a.xlsx", "/d/b.xlsx"]
    (by decide) (by decide) (by decide)

/-- Modelled from the spec (verify steps 1-2): the decrypted buffer of
the round trip — load the original bytes, serialize with the password,
load that result with the password, serialize with no password. -/
def specDecryptedBuffer {Wb C : Type} (codec : Codec Wb C) (fs : FS C)
    (p pw : String) : Option C :=
  (fs.read p).bind fun ob =>
    (codec.fromData ob none).toOption.bind fun wb1 =>
      (codec.fromData (codec.output wb1 (some pw)) (some pw)).toOption.map fun wb2 =>
        codec.output wb2 none

/-- Modelled from the spec (verify step 3): the passthrough buffer —
load the original bytes and serialize with no password. -/
def specPassthroughBuffer {Wb C : Type} (codec : Codec Wb C) (fs : FS C)
    (p : String) : Option C :=
  (fs.read p).bind fun ob =>
    (codec.fromData ob none).toOption.map fun wb3 => codec.output wb3 none

theorem verifyFile_ok_inv {Wb C : Type} (codec : Codec Wb C) (hb : C → String)
    (fs : FS C) (p pw : String) (out : VerifyReport C × FS C × List Ev)
    (h : verifyFile codec hb fs p pw = Except.ok out) :
    out.1.verdict = (hb out.1.passthroughBuffer == hb out.1.decryptedBuffer)
    ∧ specPassthroughBuffer codec fs p = some out.1.passthroughBuffer
    ∧ specDecryptedBuffer codec fs p pw = some out.1.decryptedBuffer
    ∧ out.2.1 = fs
    ∧ out.2.2 = [Ev.read p] := by
  cases h0 : fs.read p with
  | none => simp [verifyFile, h0] at h
  | some ob =>
    cases h1 : codec.fromData ob none with
    | error e => simp [verifyFile, h0, h1] at h
    | ok wb1 =>
      cases h2 : codec.fromData (codec.output wb1 (some pw)) (some pw) with
      | error e => simp [verifyFile, h0, h1, h2] at h
      | ok wb2 =>
        cases h3 : codec.fromData (codec.output wb2 none) none with
        | error e => simp [verifyFile, h0, h1, h2, h3] at h
        | ok decWb =>
          simp [verifyFile, h0, h1, h2, h3] at h
          subst h
          simp [specPassthroughBuffer, specDecryptedBuffer, h0, h1, h2,
            Except.toOption, Option.bind]

/-- C6: the verify operation's final verdict equals the hash comparison
of the passthrough buffer against the decrypted buffer, and nothing else:
replacing the codec's sheet-name and byte-size observations (which feed
the sheet-structure comparison and the size-difference line) changes
neither buffer nor the verdict. -/
theorem verify_verdict_hash_only {Wb C : Type} (codec : Codec Wb C)
    (hb : C → String) (fs : FS C) (p pw : String)
    (sheets2 : Wb → List String) (size2 : C → Nat)
    (out1 out2 : VerifyReport C × FS C × List Ev)
    (hrun1 : verifyFile codec hb fs p pw = Except.ok out1)
    (hrun2 : verifyFile { codec with sheets := sheets2, size := size2 } hb fs p pw =
      Except.ok out2) :
    out1.1.verdict = (hb out1.1.passthroughBuffer == hb out1.1.decryptedBuffer)
    ∧ out2.1.passthroughBuffer = out1.1.passthroughBuffer
    ∧ out2.1.decryptedBuffer = out1.1.decryptedBuffer
    ∧ out2.1.verdict = out1.1.verdict := by
  have i1 := verifyFile_ok_inv codec hb fs p pw out1 hrun1
  have i2 := verifyFile_ok_inv { codec with sheets := sheets2, size := size2 }
    hb fs p pw out2 hrun2
  have hpass : specPassthroughBuffer { codec with sheets := sheets2, size := size2 } fs p
      = specPassthroughBuffer codec fs p := rfl
  have hdec : specDecryptedBuffer { codec with sheets := sheets2, size := size2 } fs p pw
      = specDecryptedBuffer codec fs p pw := rfl
  have hp : out2.1.passthroughBuffer = out1.1.passthroughBuffer := by
    have ha := i1.2.1
    have hb2 := i2.2.1
    rw [hpass, ha] at hb2
    exact (Option.some.inj hb2).symm
  have hd : out2.1.decryptedBuffer = out1.1.decryptedBuffer := by
    have ha := i1.2.2.1
    have hb2 := i2.2.2.1
    rw [hdec, ha] at hb2
    exact (Option.some.inj hb2).symm
  refine ⟨i1.1, hp, hd, ?_⟩
  rw [i1.1, i2.1, hp, hd]

/-- Witness for C6: a plain workbook verified with password `1234`,
once with the toy codec and once with its sheet and size observations
replaced; hypotheses are discharged by evaluation. -/
theorem verify_verdict_hash_only_witness :
    (true : Bool) = (toyHash (XContent.plain 7) == toyHash (XContent.plain 7))
    ∧ XContent.plain 7 = XContent.plain 7
    ∧ XContent.plain 7 = XContent.plain 7
    ∧ (true : Bool) = true :=
  verify_verdict_hash_only toyCodec toyHash [("/d/a.xlsx", XContent.plain 7)]
    "/d/a.xlsx" "1234" (fun _ => []) (fun _ => 99)
    ({ originalBuffer := XContent.plain 7, encryptedBuffer := XContent.enc "1234" 7,
       decryptedBuffer := XContent.plain 7, passthroughBuffer := XContent.plain 7,
       passVsDecrypt := true, sizeDiff := 0, origSheets := ["7"], decSheets := ["7"],
       sheetsMatch := true, verdict := true },
     [("/d/a.xlsx", XContent.plain 7)], [Ev.read "/d/a.xlsx"])
    ({ originalBuffer := XContent.plain 7, encryptedBuffer := XContent.enc "1234" 7,
       decryptedBuffer := XContent.plain 7, passthroughBuffer := XContent.plain 7,
       passVsDecrypt := true, sizeDiff := 0, origSheets := [], decSheets := [],
       sheetsMatch := true, verdict := true },
     [("/d/a.xlsx", XContent.plain 7)], [Ev.read "/d/a.xlsx"])
    (by decide) (by decide)

/-- C7: a verify run that returns performs no persistent mutation — the
filesystem it returns is exactly the input filesystem, and its only file
access is a single read of the target path (no write to any path). -/
theorem verify_no_mutation {Wb C : Type} (codec : Codec Wb C) (hb : C → String)
    (fs : FS C) (p pw : String) (out : VerifyReport C × FS C × List Ev)
    (h : verifyFile codec hb fs p pw = Except.ok out) :
    out.2.1 = fs ∧ out.2.2 = [Ev.read p] := by
  have i := verifyFile_ok_inv codec hb fs p pw out h
  exact ⟨i.2.2.2.1, i.2.2.2.2⟩

/-- Witness for C7 on a concrete verify run. -/
theorem verify_no_mutation_witness :
    [("/d/a.xlsx", XContent.plain 7)] = [("/d/a.xlsx", XContent.plain 7)]
    ∧ [Ev.read "/d/a.xlsx"] = [Ev.read "/d/a.xlsx"] :=
  verify_no_mutation toyCodec toyHash [("/d/a.xlsx", XContent.plain 7)]
    "/d/a.xlsx" "1234"
    ({ originalBuffer := XContent.plain 7, encryptedBuffer := XContent.enc "1234" 7,
       decryptedBuffer := XContent.plain 7, passthroughBuffer := XContent.plain 7,
       passVsDecrypt := true, sizeDiff := 0, origSheets := ["7"], decSheets := ["7"],
       sheetsMatch := true, verdict := true },
     [("/d/a.xlsx", XContent.plain 7)], [Ev.read "/d/a.xlsx"])
    (by decide)

/-- C8: when a command-line token is missing (falsy), when the resolved
target path does not exist, or when an unrecognized command is given with
a single-file target, the run ends on a usage or error message with exit
status 1, the filesystem unchanged and no file read or written. -/
theorem early_exit_untouched {Wb C : Type} (codec : Codec Wb C) (hb : C → String)
    (resolve : String → String) (command password targetPath : Option String)
    (info : String → TargetInfo) (fs : FS C)
    (h : truthy command = false ∨ truthy password = false ∨ truthy targetPath = false
      ∨ (∃ tp, targetPath = some tp ∧ info (resolve tp) = TargetInfo.missing)
      ∨ (∃ cmd tp, command = some cmd ∧ targetPath = some tp
          ∧ cmd ≠ "encrypt" ∧ cmd ≠ "decrypt" ∧ cmd ≠ "verify"
          ∧ info (resolve tp) = TargetInfo.file)) :
    (main codec hb resolve command password targetPath info fs).exitCode = 1
    ∧ (main codec hb resolve command password targetPath info fs).fs = fs
    ∧ (main codec hb resolve command password targetPath info fs).evs = []
    ∧ ((main codec hb resolve command password targetPath info fs).kind = OutKind.usage
      ∨ (main codec hb resolve command password targetPath info fs).kind = OutKind.notFound
      ∨ (main codec hb resolve command password targetPath info fs).kind =
          OutKind.unknownCmd) := by
  cases hc1 : truthy command with
  | false => simp [main, hc1]
  | true =>
    cases hc2 : truthy password with
    | false => simp [main, hc1, hc2]
    | true =>
      cases hc3 : truthy targetPath with
      | false => simp [main, hc1, hc2, hc3]
      | true =>
        rcases h with h | h | h | ⟨tp, htp, hmiss⟩ |
            ⟨cmd, tp, hcmd, htp, h1, h2, h3, hfile⟩
        · rw [hc1] at h
          cases h
        · rw [hc2] at h
          cases h
        · rw [hc3] at h
          cases h
        · subst htp
          cases command with
          | none => simp [truthy] at hc1
          | some cmd =>
            cases password with
            | none => simp [truthy] at hc2
            | some pw => simp [main, hc1, hc2, hc3, hmiss]
        · subst hcmd
          subst htp
          cases password with
          | none => simp [truthy] at hc2
          | some pw => simp [main, hc1, hc2, hc3, hfile, h1, h2, h3]

/-- Witness for C8: an unknown command on an existing single-file target
exits 1 with nothing touched. -/
theorem early_exit_untouched_witness :
    (main toyCodec toyHash id (some "frobnicate") (some "x") (some "/d/a.xlsx")
      (fun _ => TargetInfo.file) [("/d/a.xlsx", XContent.plain 7)]).exitCode = 1
    ∧ (main toyCodec toyHash id (some "frobnicate") (some "x") (some "/d/a.xlsx")
      (fun _ => TargetInfo.file) [("/d/a.xlsx", XContent.plain 7)]).fs =
        [("/d/a.xlsx", XContent.plain 7)]
    ∧ (main toyCodec toyHash id (some "frobnicate") (some "x") (some "/d/a.xlsx")
      (fun _ => TargetInfo.file) [("/d/a.xlsx", XContent.plain 7)]).evs = []
    ∧ ((main toyCodec toyHash id (some "frobnicate") (some "x") (some "/d/a.xlsx")
      (fun _ => TargetInfo.file) [("/d/a.xlsx", XContent.plain 7)]).kind = OutKind.usage
      ∨ (main toyCodec toyHash id (some "frobnicate") (some "x") (some "/d/a.xlsx")
      (fun _ => TargetInfo.file) [("/d/a.xlsx", XContent.plain 7)]).kind = OutKind.notFound
      ∨ (main toyCodec toyHash id (some "frobnicate") (some "x") (some "/d/a.xlsx")
      (fun _ => TargetInfo.file) [("/d/a.xlsx", XContent.plain 7)]).kind =
          OutKind.unknownCmd) :=
  early_exit_untouched toyCodec toyHash id (some "frobnicate") (some "x")
    (some "/d/a.xlsx") (fun _ => TargetInfo.file) [("/d/a.xlsx", XContent.plain 7)]
    (Or.inr (Or.inr (Or.inr (Or.inr
      ⟨"frobnicate", "/d/a.xlsx", rfl, rfl, by decide, by decide, by decide, rfl⟩))))

/-- C9: in directory mode with an empty candidate list the run reports
that no target files were found and exits 0 without invoking any
operation on any file. -/
theorem dir_no_candidates_exits_zero {Wb C : Type} (codec : Codec Wb C)
    (hb : C → String) (resolve : String → String) (cmd pw tp : String)
    (info : String → TargetInfo) (fs : FS C) (listing : List String)
    (hc : cmd ≠ "") (hp : pw ≠ "") (ht : tp ≠ "")
    (hdir : info (resolve tp) = TargetInfo.dir listing)
    (hempty : candidates listing = []) :
    main codec hb resolve (some cmd) (some pw) (some tp) info fs =
      { exitCode := 0, kind := OutKind.noFiles, fs := fs, evs := [] } := by
  simp [main, truthy, hc, hp, ht, hdir, hempty]

/-- Witness for C9: a directory holding only a non-candidate file and a
lock file. -/
theorem dir_no_candidates_exits_zero_witness :
    main toyCodec toyHash id (some "encrypt") (some "1234") (some "/d")
      (fun _ => TargetInfo.dir ["b.txt", "~$a.xlsx"]) ([] : FS XContent) =
      { exitCode := 0, kind := OutKind.noFiles, fs := [], evs := [] } :=
  dir_no_candidates_exits_zero toyCodec toyHash id "encrypt" "1234" "/d"
    (fun _ => TargetInfo.dir ["b.txt", "~$a.xlsx"]) [] ["b.txt", "~$a.xlsx"]
    (by decide) (by decide) (by decide) rfl (by decide)

/-- C10: an empty-string password is treated exactly like a missing
password argument — the truthiness check fails, usage is printed and the
run exits 1 with the filesystem untouched and no file accessed, for every
resolver, target and filesystem. -/
theorem empty_password_like_missing {Wb C : Type} (codec : Codec Wb C)
    (hb : C → String) (resolve : String → String)
    (command targetPath : Option String) (info : String → TargetInfo) (fs : FS C) :
    main codec hb resolve command (some "") targetPath info fs =
      { exitCode := 1, kind := OutKind.usage, fs := fs, evs := [] }
    ∧ main codec hb resolve command (some "") targetPath info fs =
      main codec hb resolve command none targetPath info fs := by
  constructor <;> simp [main, truthy]

end EncryptExcel
